import Mathlib

/-!
# Verification of the DDI-Safe drug-interaction core

Shallow embedding of the two core components of the repository:

* `DrugInteractionGraph` (`src/drug_interaction_graph.py`): an undirected
  attributed graph of drug-drug interactions backed by `igraph`, together
  with an auxiliary dictionary `_name_to_vertex` mapping normalized drug
  names to vertex ids.
* `DrugNameMapper` (`src/app/core/drug_mapper.py`): fuzzy drug-name
  resolution over a fixed vocabulary with precomputed embedding vectors
  and cosine similarity.

Modelling conventions:

* Python strings are `String`; Python `None`-able strings are `Option String`.
* The Python dict `_name_to_vertex` is an insertion-ordered association
  list with unique keys; `dictInsert` overwrites an existing key in place,
  as a Python dict assignment does.
* `igraph` edges keep their insertion order; `get_eid(v1, v2, error=False)`
  on an undirected graph returns the id of the first edge joining the two
  endpoints in either orientation, and `-1` (here `none`) when there is none.
* The sentence-transformer model composed with `cosine_similarity` is an
  abstract function `enc : String → List ℚ` producing one similarity score
  per vocabulary entry; `np.argsort` is modelled as a stable ascending sort
  (ties keep their original index order), matching numpy's behaviour on the
  small arrays exercised here.
* Fallible operations (Python exceptions) return `Option`.
-/

namespace DDISafe

/-- A vertex of the interaction graph: the `name` and `name_normalized`
attributes set in `_get_or_create_vertex`. -/
structure GVertex where
  name : String
  name_normalized : String
deriving DecidableEq, Repr, Inhabited

/-- An edge of the interaction graph: endpoints by vertex id plus the
`condition` attribute.  The condition is `Option String` because
`add_interaction` stores whatever it is handed, including Python `None`
(e.g. from a bulk-load row whose `condition` field is missing). -/
structure GEdge where
  source : Nat
  target : Nat
  condition : Option String
deriving DecidableEq, Repr, Inhabited

/-- The state of `DrugInteractionGraph`: vertex list, edge list, and the
auxiliary index `_name_to_vertex` (normalized name → vertex id). -/
structure DrugInteractionGraph where
  vertices : List GVertex
  edges : List GEdge
  name_to_vertex : List (String × Nat)
deriving DecidableEq, Repr

/-- `DrugInteractionGraph.__init__` without a filepath: the empty graph. -/
def emptyGraph : DrugInteractionGraph :=
  { vertices := [], edges := [], name_to_vertex := [] }

/-- Python `str.strip()`: drop leading and trailing whitespace.  Modelled
character-by-character so that concrete instances evaluate in the kernel. -/
def pyStrip (s : String) : String :=
  ⟨((s.data.dropWhile Char.isWhitespace).reverse.dropWhile Char.isWhitespace).reverse⟩

/-- Python `str.lower()`: case-fold every character. -/
def pyLower (s : String) : String :=
  ⟨s.data.map Char.toLower⟩

/-- `_normalize_name`: `name.strip().lower()`. -/
def normalizeName (name : String) : String :=
  pyLower (pyStrip name)

/-- Python dict lookup on the association list (keys are unique). -/
def dictGet (d : List (String × Nat)) (k : String) : Option Nat :=
  (d.find? (fun p => p.1 == k)).map (fun p => p.2)

/-- Python dict assignment `d[k] = v`: overwrite in place when the key is
present, append otherwise. -/
def dictInsert (d : List (String × Nat)) (k : String) (v : Nat) :
    List (String × Nat) :=
  if d.any (fun p => p.1 == k) then
    d.map (fun p => if p.1 == k then (k, v) else p)
  else
    d ++ [(k, v)]

/-- `_get_or_create_vertex`: look the normalized name up in
`_name_to_vertex`; on a miss append a fresh vertex (id = current vertex
count) carrying the stripped display name and the normalized key, and
record it in the index. -/
def getOrCreateVertex (g : DrugInteractionGraph) (drugName : String) :
    DrugInteractionGraph × Nat :=
  let normalized := normalizeName drugName
  match dictGet g.name_to_vertex normalized with
  | some v => (g, v)
  | none =>
      let vertexId := g.vertices.length
      ({ vertices := g.vertices ++ [⟨pyStrip drugName, normalized⟩],
         edges := g.edges,
         name_to_vertex := dictInsert g.name_to_vertex normalized vertexId },
       vertexId)

/-- Whether an undirected edge joins `v1` and `v2` (either orientation),
as `igraph.get_eid` tests on an undirected graph. -/
def edgeMatches (v1 v2 : Nat) (e : GEdge) : Bool :=
  (e.source == v1 && e.target == v2) || (e.source == v2 && e.target == v1)

/-- Index of the first edge joining `v1` and `v2`, if any: models
`graph.get_eid(v1, v2, error=False)` (which returns `-1`, here `none`,
when no such edge exists). -/
def findEdgeIdx (v1 v2 : Nat) : List GEdge → Option Nat
  | [] => none
  | e :: es =>
      if edgeMatches v1 v2 e then some 0
      else (findEdgeIdx v1 v2 es).map (fun i => i + 1)

/-- `get_eid` on the graph's edge list. -/
def getEid (g : DrugInteractionGraph) (v1 v2 : Nat) : Option Nat :=
  findEdgeIdx v1 v2 g.edges

/-- `add_interaction`: get-or-create both vertices, then either create the
edge or overwrite the existing edge's `condition`. -/
def addInteraction (g : DrugInteractionGraph) (drug1 drug2 : String)
    (condition : Option String) : DrugInteractionGraph :=
  let p1 := getOrCreateVertex g drug1
  let p2 := getOrCreateVertex p1.1 drug2
  let g2 := p2.1
  match getEid g2 p1.2 p2.2 with
  | none =>
      { g2 with edges := g2.edges ++ [⟨p1.2, p2.2, condition⟩] }
  | some eid =>
      match g2.edges[eid]? with
      | some e => { g2 with edges := g2.edges.set eid { e with condition := condition } }
      | none => g2

/-- `search_interaction`: `None` when either normalized name is absent
from the index or no edge joins the two vertices; otherwise the stored
`condition` attribute (itself possibly Python `None`). -/
def searchInteraction (g : DrugInteractionGraph) (drug1 drug2 : String) :
    Option String :=
  let normalized1 := normalizeName drug1
  let normalized2 := normalizeName drug2
  match dictGet g.name_to_vertex normalized1,
        dictGet g.name_to_vertex normalized2 with
  | some v1, some v2 =>
      match getEid g v1 v2 with
      | none => none
      | some eid =>
          match g.edges[eid]? with
          | some e => e.condition
          | none => none
  | _, _ => none

/-- `get_stats`: `{"drugs": vcount, "interactions": ecount}`. -/
def getStats (g : DrugInteractionGraph) : Nat × Nat :=
  (g.vertices.length, g.edges.length)

/-- `List.Pairwise` fact used everywhere: `getEid` ignores the order of
its two endpoints, because `edgeMatches` is symmetric. -/
theorem edgeMatches_comm (v1 v2 : Nat) (e : GEdge) :
    edgeMatches v1 v2 e = edgeMatches v2 v1 e := by
  simp only [edgeMatches]
  exact Bool.or_comm _ _

theorem findEdgeIdx_comm (v1 v2 : Nat) (es : List GEdge) :
    findEdgeIdx v1 v2 es = findEdgeIdx v2 v1 es := by
  induction es with
  | nil => rfl
  | cons e es ih =>
      simp only [findEdgeIdx, edgeMatches_comm v1 v2 e, ih]

theorem getEid_comm (g : DrugInteractionGraph) (v1 v2 : Nat) :
    getEid g v1 v2 = getEid g v2 v1 :=
  findEdgeIdx_comm v1 v2 g.edges

/-- C1: `search_interaction` is symmetric: for every graph state and
every pair of name strings, `get_interaction(a,b) = get_interaction(b,a)`,
whether the result is a condition string or none. -/
theorem searchInteraction_symm (g : DrugInteractionGraph) (a b : String) :
    searchInteraction g a b = searchInteraction g b a := by
  unfold searchInteraction
  cases h1 : dictGet g.name_to_vertex (normalizeName a) with
  | none =>
      cases h2 : dictGet g.name_to_vertex (normalizeName b) <;> simp [h1, h2]
  | some v1 =>
      cases h2 : dictGet g.name_to_vertex (normalizeName b) with
      | none => simp [h1, h2]
      | some v2 => simp [h1, h2, getEid_comm g v1 v2]

/-- One row produced by `csv.DictReader` for `load_from_csv`.  A field is
`none` when the column is absent from the file or the row is short (the
reader then yields Python `None`); `row.get` returns that `None` too. -/
structure CsvRow where
  drug1 : Option String
  drug_1 : Option String
  drug2 : Option String
  drug_2 : Option String
  condition : Option String
deriving DecidableEq, Repr

/-- `row.get("drug1", row.get("drug_1"))`. -/
def rowDrug1 (r : CsvRow) : Option String :=
  match r.drug1 with
  | some v => some v
  | none => r.drug_1

/-- `row.get("drug2", row.get("drug_2"))`. -/
def rowDrug2 (r : CsvRow) : Option String :=
  match r.drug2 with
  | some v => some v
  | none => r.drug_2

/-- The row loop of `load_from_csv`.  A row whose resolved `drug1` or
`drug2` is `None` makes `add_interaction` call `None.strip()`, raising
`AttributeError` and aborting the whole load (modelled as `none`); a row
whose `condition` is `None` is inserted with a `None` condition and
counted.  On success the pair is the final graph and the row count. -/
def loadFromCsvAux (g : DrugInteractionGraph) (count : Nat) :
    List CsvRow → Option (DrugInteractionGraph × Nat)
  | [] => some (g, count)
  | row :: rest =>
      match rowDrug1 row, rowDrug2 row with
      | some d1, some d2 =>
          loadFromCsvAux (addInteraction g d1 d2 row.condition) (count + 1) rest
      | _, _ => none

/-- `load_from_csv` on an already-parsed row list (file I/O elided). -/
def loadFromCsv (g : DrugInteractionGraph) (rows : List CsvRow) :
    Option (DrugInteractionGraph × Nat) :=
  loadFromCsvAux g 0 rows

/-- A parsed item of the JSON bulk-load file; `none` models a missing key,
on which `item["drug1"]` raises `KeyError`. -/
structure JsonItem where
  drug1 : Option String
  drug2 : Option String
  condition : Option String
deriving DecidableEq, Repr

/-- The item loop of `load_from_json`: subscripting a missing key aborts
the load with `KeyError` (modelled as `none`). -/
def loadFromJsonAux (g : DrugInteractionGraph) (count : Nat) :
    List JsonItem → Option (DrugInteractionGraph × Nat)
  | [] => some (g, count)
  | item :: rest =>
      match item.drug1, item.drug2, item.condition with
      | some d1, some d2, some c =>
          loadFromJsonAux (addInteraction g d1 d2 (some c)) (count + 1) rest
      | _, _, _ => none

/-- `load_from_json` on an already-parsed item list. -/
def loadFromJson (g : DrugInteractionGraph) (items : List JsonItem) :
    Option (DrugInteractionGraph × Nat) :=
  loadFromJsonAux g 0 items

/-- A vertex-index hit makes `_get_or_create_vertex` a pure lookup. -/
theorem getOrCreateVertex_hit (g : DrugInteractionGraph) (a : String) (v : Nat)
    (h : dictGet g.name_to_vertex (normalizeName a) = some v) :
    getOrCreateVertex g a = (g, v) := by
  simp only [getOrCreateVertex, h]

/-- Overwriting an edge's `condition` does not move it: `findEdgeIdx` only
inspects endpoints, which `List.set` with an endpoint-equal edge preserves. -/
theorem findEdgeIdx_set (v1 v2 : Nat) (l : List GEdge) (i : Nat) (e e' : GEdge)
    (hl : l[i]? = some e) (hm : edgeMatches v1 v2 e' = edgeMatches v1 v2 e) :
    findEdgeIdx v1 v2 (l.set i e') = findEdgeIdx v1 v2 l := by
  induction l generalizing i with
  | nil => simp at hl
  | cons x xs ih =>
      cases i with
      | zero =>
          simp only [List.getElem?_cons_zero, Option.some.injEq] at hl
          subst hl
          simp only [List.set_cons_zero, findEdgeIdx, hm]
      | succ n =>
          simp only [List.getElem?_cons_succ] at hl
          simp only [List.set_cons_succ, findEdgeIdx, ih n hl]

/-- Setting a list cell to the value it already holds is a no-op. -/
theorem list_set_self {α : Type} (l : List α) (i : Nat) (e : α)
    (h : l[i]? = some e) : l.set i e = l := by
  induction l generalizing i with
  | nil => simp at h
  | cons x xs ih =>
      cases i with
      | zero =>
          simp only [List.getElem?_cons_zero, Option.some.injEq] at h
          subst h
          simp
      | succ n =>
          simp only [List.getElem?_cons_succ] at h
          simp [ih n h]

/-- C5: Upserting a pair that is already present as an edge leaves the
vertex count and edge count unchanged; afterwards `get_interaction(a,b)`
returns the condition supplied by the latest call (last write wins); and
re-inserting with an unchanged condition leaves the whole state unchanged
(idempotence). -/
theorem addInteraction_existing_edge (g : DrugInteractionGraph)
    (a b : String) (c : Option String) (v1 v2 eid : Nat) (e : GEdge)
    (h1 : dictGet g.name_to_vertex (normalizeName a) = some v1)
    (h2 : dictGet g.name_to_vertex (normalizeName b) = some v2)
    (he : getEid g v1 v2 = some eid)
    (hg : g.edges[eid]? = some e) :
    getStats (addInteraction g a b c) = getStats g ∧
    searchInteraction (addInteraction g a b c) a b = c ∧
    (e.condition = c → addInteraction g a b c = g) := by
  have hlt : eid < g.edges.length := by
    by_contra hge
    rw [List.getElem?_eq_none (Nat.le_of_not_lt hge)] at hg
    exact Option.noConfusion hg
  have hadd : addInteraction g a b c =
      { g with edges := g.edges.set eid { e with condition := c } } := by
    simp only [addInteraction, getOrCreateVertex_hit g a v1 h1,
      getOrCreateVertex_hit g b v2 h2, he, hg]
  have hfind : findEdgeIdx v1 v2 (g.edges.set eid { e with condition := c }) =
      some eid := by
    rw [findEdgeIdx_set v1 v2 g.edges eid e { e with condition := c } hg rfl]
    exact he
  refine ⟨?_, ?_, ?_⟩
  · rw [hadd]
    simp [getStats]
  · rw [hadd]
    simp only [searchInteraction, getEid, h1, h2]
    rw [hfind]
    simp [List.getElem?_set_self hlt]
  · intro hc
    rw [hadd, ← hc]
    have : ({ e with condition := e.condition } : GEdge) = e := rfl
    rw [this, list_set_self g.edges eid e hg]

/-- A concrete one-edge graph used to instantiate hypotheses. -/
def sampleGraph : DrugInteractionGraph :=
  addInteraction emptyGraph "A" "B" (some "x")

/-- Witness for C5 at the concrete graph `sampleGraph`. -/
theorem addInteraction_existing_edge_witness :
    getStats (addInteraction sampleGraph "A" "B" (some "x")) = getStats sampleGraph ∧
    searchInteraction (addInteraction sampleGraph "A" "B" (some "x")) "A" "B" = some "x" ∧
    ((⟨0, 1, some "x"⟩ : GEdge).condition = some "x" →
      addInteraction sampleGraph "A" "B" (some "x") = sampleGraph) :=
  addInteraction_existing_edge sampleGraph "A" "B" (some "x") 0 1 0
    ⟨0, 1, some "x"⟩ (by decide) (by decide) (by decide) (by decide)

theorem loadFromCsvAux_complete (rows : List CsvRow) :
    ∀ (g : DrugInteractionGraph) (n : Nat),
      (∀ r ∈ rows, (rowDrug1 r).isSome ∧ (rowDrug2 r).isSome) →
      ∃ g', loadFromCsvAux g n rows = some (g', n + rows.length) := by
  induction rows with
  | nil =>
      intro g n _
      exact ⟨g, by simp [loadFromCsvAux]⟩
  | cons row rest ih =>
      intro g n h
      have hr := h row (List.mem_cons_self row rest)
      obtain ⟨d1, hd1⟩ := Option.isSome_iff_exists.mp hr.1
      obtain ⟨d2, hd2⟩ := Option.isSome_iff_exists.mp hr.2
      obtain ⟨g', hg'⟩ := ih (addInteraction g d1 d2 row.condition) (n + 1)
        (fun r hrr => h r (List.mem_cons_of_mem _ hrr))
      refine ⟨g', ?_⟩
      have hlen : n + (row :: rest).length = n + 1 + rest.length := by
        simp only [List.length_cons]
        omega
      rw [hlen]
      simp only [loadFromCsvAux, hd1, hd2]
      exact hg'

theorem loadFromJsonAux_complete (items : List JsonItem) :
    ∀ (g : DrugInteractionGraph) (n : Nat),
      (∀ it ∈ items, it.drug1.isSome ∧ it.drug2.isSome ∧ it.condition.isSome) →
      ∃ g', loadFromJsonAux g n items = some (g', n + items.length) := by
  induction items with
  | nil =>
      intro g n _
      exact ⟨g, by simp [loadFromJsonAux]⟩
  | cons item rest ih =>
      intro g n h
      have hr := h item (List.mem_cons_self item rest)
      obtain ⟨d1, hd1⟩ := Option.isSome_iff_exists.mp hr.1
      obtain ⟨d2, hd2⟩ := Option.isSome_iff_exists.mp hr.2.1
      obtain ⟨c, hc⟩ := Option.isSome_iff_exists.mp hr.2.2
      obtain ⟨g', hg'⟩ := ih (addInteraction g d1 d2 (some c)) (n + 1)
        (fun r hrr => h r (List.mem_cons_of_mem _ hrr))
      refine ⟨g', ?_⟩
      have hlen : n + (item :: rest).length = n + 1 + rest.length := by
        simp only [List.length_cons]
        omega
      rw [hlen]
      simp only [loadFromJsonAux, hd1, hd2, hc]
      exact hg'

/-- C4 counterexample: A CSV row whose drug-name field is missing is
not skipped: the load aborts (`None.strip()` raises `AttributeError`).
A row missing only the condition is not skipped either: it is inserted
with a `None` condition and counted as loaded. -/
theorem loadFromCsv_not_skipping_counterexample :
    loadFromCsv emptyGraph [⟨none, none, some "B", none, some "c"⟩] = none ∧
    loadFromCsv emptyGraph [⟨some "A", none, some "B", none, none⟩] =
      some ({ vertices := [⟨"A", "a"⟩, ⟨"B", "b"⟩],
              edges := [⟨0, 1, none⟩],
              name_to_vertex := [("a", 0), ("b", 1)] }, 1) := by
  decide

/-- C4 amended: Bulk loading performs no row skipping: a row whose
drug-name field is missing aborts the CSV load, and an item missing any
key aborts the JSON load; when every row has both drug-name fields the
CSV load completes and counts *every* row (including rows whose condition
is missing, which are inserted with a `None` condition), and likewise for
JSON items with all keys present. -/
theorem bulkLoad_behaviour :
    (∀ (g : DrugInteractionGraph) (rows : List CsvRow),
      (∀ r ∈ rows, (rowDrug1 r).isSome ∧ (rowDrug2 r).isSome) →
      ∃ g', loadFromCsv g rows = some (g', rows.length)) ∧
    (∀ (g : DrugInteractionGraph) (items : List JsonItem),
      (∀ it ∈ items, it.drug1.isSome ∧ it.drug2.isSome ∧ it.condition.isSome) →
      ∃ g', loadFromJson g items = some (g', items.length)) := by
  constructor
  · intro g rows h
    obtain ⟨g', hg'⟩ := loadFromCsvAux_complete rows g 0 h
    exact ⟨g', by simpa [loadFromCsv] using hg'⟩
  · intro g items h
    obtain ⟨g', hg'⟩ := loadFromJsonAux_complete items g 0 h
    exact ⟨g', by simpa [loadFromJson] using hg'⟩

/-- Witness for the amended C4: a single row missing only its condition
loads to completion and is counted. -/
theorem bulkLoad_behaviour_witness :
    (∀ r ∈ [(⟨some "A", none, some "B", none, none⟩ : CsvRow)],
      (rowDrug1 r).isSome ∧ (rowDrug2 r).isSome) ∧
    ∃ g', loadFromCsv emptyGraph [(⟨some "A", none, some "B", none, none⟩ : CsvRow)] =
      some (g', 1) :=
  ⟨by decide, bulkLoad_behaviour.1 emptyGraph
    [(⟨some "A", none, some "B", none, none⟩ : CsvRow)] (by decide)⟩

/-! Section: DrugNameMapper (`src/app/core/drug_mapper.py`)

The sentence-transformer model composed with `sklearn`'s
`cosine_similarity` is modelled as an abstract `enc : String → List ℚ`
taking the cleaned query to one similarity score per vocabulary entry
(`cosine_similarity(model.encode([q]), self.embeddings)[0]`).  The
`model` and `embeddings` fields of the Python object are subsumed by
`enc`; `drug_to_index` is unused by the operations verified here. -/

/-- The observable state of `DrugNameMapper`: the vocabulary list
`drug_names` and the `is_loaded` flag set by `load_embeddings`. -/
structure DrugNameMapper where
  drug_names : List String
  is_loaded : Bool
deriving DecidableEq, Repr

/-- The index/value pairs `np.argsort` ranks: every position of the
similarity row together with its score. -/
def simPairs (s : List ℚ) : List (ℕ × ℚ) :=
  (List.range s.length).map (fun i => (i, s.getD i 0))

/-- Comparison used to model `np.argsort` as a stable ascending sort:
by score, then by original position on ties. -/
def pairLE (p q : ℕ × ℚ) : Prop :=
  p.2 < q.2 ∨ (p.2 = q.2 ∧ p.1 ≤ q.1)

instance : DecidableRel pairLE := fun _ _ =>
  inferInstanceAs (Decidable (_ ∨ _))

instance : IsTotal (ℕ × ℚ) pairLE where
  total p q := by
    rcases lt_trichotomy p.2 q.2 with h | h | h
    · exact Or.inl (Or.inl h)
    · rcases Nat.le_total p.1 q.1 with h1 | h1
      · exact Or.inl (Or.inr ⟨h, h1⟩)
      · exact Or.inr (Or.inr ⟨h.symm, h1⟩)
    · exact Or.inr (Or.inl h)

instance : IsTrans (ℕ × ℚ) pairLE where
  trans a b c hab hbc := by
    rcases hab with h | ⟨he, hi⟩
    · rcases hbc with h' | ⟨he', hi'⟩
      · exact Or.inl (h.trans h')
      · exact Or.inl (he' ▸ h)
    · rcases hbc with h' | ⟨he', hi'⟩
      · exact Or.inl (he ▸ h')
      · exact Or.inr ⟨he.trans he', hi.trans hi'⟩

/-- `np.argsort(similarities)`: positions in ascending score order,
ties keeping their original order. -/
def argsortAsc (s : List ℚ) : List ℕ :=
  (List.insertionSort pairLE (simPairs s)).map Prod.fst

/-- `np.argsort(similarities)[::-1]`. -/
def argsortDesc (s : List ℚ) : List ℕ :=
  (argsortAsc s).reverse

/-- Python list slicing `l[:k]` for an `int` `k`, including the negative
case (`l[:k] = l[:len(l)+k]` drops the last `|k|` elements). -/
def pyTake {α : Type} (k : Int) (l : List α) : List α :=
  if 0 ≤ k then l.take k.toNat else l.take (l.length - (-k).toNat)

/-- `top_indices = np.argsort(similarities)[::-1][:top_k]` followed by the
threshold filter of the result loop in `_find_closest_drugs`. -/
def selectedIndices (s : List ℚ) (top_k : Int) (threshold : ℚ) : List ℕ :=
  (pyTake top_k (argsortDesc s)).filter (fun i => decide (threshold ≤ s.getD i 0))

/-- `_find_closest_drugs` (identical in
`DrugEmbeddingMapper.find_closest_drug`): rank all vocabulary positions by
similarity, keep the top `top_k`, drop those under `threshold`, and return
`(drug_names[idx], similarity)` pairs. -/
def findClosestDrugs (names : List String) (enc : String → List ℚ)
    (query : String) (top_k : Int) (threshold : ℚ) : List (String × ℚ) :=
  let similarities := enc query
  (selectedIndices similarities top_k threshold).map
    (fun i => (names.getD i "", similarities.getD i 0))

/-- `map_drug_name`: `None` when not loaded or the query is empty after
stripping; otherwise the first vocabulary entry whose lowercase form
equals the cleaned query (exact-match loop), else the best similarity
result at or above the threshold, else `None`. -/
def mapDrugName (m : DrugNameMapper) (enc : String → List ℚ)
    (extractedName : String) (threshold : ℚ) (top_k : Int) : Option String :=
  if m.is_loaded = false then none
  else if extractedName = "" ∨ pyStrip extractedName = "" then none
  else
    let cleaned := pyLower (pyStrip extractedName)
    match m.drug_names.find? (fun dn => pyLower dn == cleaned) with
    | some dn => some dn
    | none =>
        match findClosestDrugs m.drug_names enc cleaned top_k threshold with
        | [] => none
        | (name, _) :: _ => some name

/-- `get_drug_suggestions`: empty list when not loaded or the query is
empty after stripping; otherwise all `_find_closest_drugs` results. -/
def getDrugSuggestions (m : DrugNameMapper) (enc : String → List ℚ)
    (extractedName : String) (top_k : Int) (threshold : ℚ) : List (String × ℚ) :=
  if m.is_loaded = false then []
  else if extractedName = "" ∨ pyStrip extractedName = "" then []
  else findClosestDrugs m.drug_names enc (pyLower (pyStrip extractedName)) top_k threshold

/-- C2 counterexample: The claim quantifies over every query whose
trimmed case-folded form equals some vocabulary entry.  With the entry
`""` in the vocabulary and the query `" "`, that premise holds, yet
`map_drug_name` returns `None` (the empty-after-strip guard fires before
the exact-match loop), not the matching entry. -/
theorem mapDrugName_exact_match_counterexample :
    pyLower (pyStrip " ") = pyLower "" ∧ "" ∈ ([""] : List String) ∧
    mapDrugName ⟨[""], true⟩ (fun _ => [(1 : ℚ)]) " " 1 1 = none := by
  decide

/-- C2 amended: For every query that is nonempty after stripping and
whose cleaned form equals the lowercase form of some vocabulary entry,
`map_drug_name` on a loaded index returns the first such entry, for every
threshold, every `top_k` and every embedding function (so similarity
scoring cannot influence the result). -/
theorem mapDrugName_exact_match (m : DrugNameMapper) (enc : String → List ℚ)
    (q : String) (t : ℚ) (k : Int) (dn : String)
    (hl : m.is_loaded = true)
    (hq : pyStrip q ≠ "")
    (hf : m.drug_names.find? (fun d => pyLower d == pyLower (pyStrip q)) = some dn) :
    mapDrugName m enc q t k = some dn := by
  have hq0 : q ≠ "" := by
    intro h
    exact hq (by rw [h]; rfl)
  simp only [mapDrugName, hl, hf]
  simp [hq0, hq]

/-- Witness for C2: `resolve("Warfarin", threshold=1.0)` returns
`"Warfarin"` when `"Warfarin"` is in the vocabulary, for an arbitrary
embedding function. -/
theorem mapDrugName_exact_match_witness :
    mapDrugName ⟨["Warfarin"], true⟩ (fun _ => [(0 : ℚ)]) "Warfarin" 1 1 =
      some "Warfarin" :=
  mapDrugName_exact_match ⟨["Warfarin"], true⟩ (fun _ => [(0 : ℚ)])
    "Warfarin" 1 1 "Warfarin" rfl (by decide) (by decide)

/-- C3 counterexample: A mapper whose index failed to load and a
loaded mapper with no match above threshold return the *same* value
(`None`) from `map_drug_name`, so a caller cannot distinguish "index
unavailable" from "no match" by the returned value. -/
theorem mapDrugName_unavailable_counterexample :
    (⟨["Warfarin"], false⟩ : DrugNameMapper).is_loaded = false ∧
    (⟨["Warfarin"], true⟩ : DrugNameMapper).is_loaded = true ∧
    mapDrugName ⟨["Warfarin"], false⟩ (fun _ => [(0 : ℚ)]) "aspirin" 1 1 =
      mapDrugName ⟨["Warfarin"], true⟩ (fun _ => [(0 : ℚ)]) "aspirin" 1 1 := by
  decide

/-- C3 amended: When the embedding index failed to load
(`is_loaded = false`), `map_drug_name` returns `None` and
`get_drug_suggestions` returns `[]` for every query — exactly the normal
"no match" values; the unavailable state is observable only through the
`is_loaded` flag (and the log), not through the returned value. -/
theorem mapDrugName_unavailable (m : DrugNameMapper) (enc : String → List ℚ)
    (q : String) (t : ℚ) (k : Int) (h : m.is_loaded = false) :
    mapDrugName m enc q t k = none ∧ getDrugSuggestions m enc q k t = [] := by
  constructor
  · simp [mapDrugName, h]
  · simp [getDrugSuggestions, h]

/-- Witness for the amended C3 at a concrete unloaded mapper. -/
theorem mapDrugName_unavailable_witness :
    mapDrugName ⟨["Warfarin"], false⟩ (fun _ => [(0 : ℚ)]) "warfarin" 1 1 = none ∧
    getDrugSuggestions ⟨["Warfarin"], false⟩ (fun _ => [(0 : ℚ)]) "warfarin" 1 1 = [] :=
  mapDrugName_unavailable ⟨["Warfarin"], false⟩ (fun _ => [(0 : ℚ)]) "warfarin" 1 1 rfl

/-- C8 counterexample: No validation happens at the call boundary: with
an empty query, a threshold of `2` (outside `[0,1]`) and `top_k = -1`, both
operations return their normal "no match" values instead of failing; and a
negative `top_k` on a real query silently truncates the candidate list
(Python slice semantics) rather than raising. -/
theorem mapper_no_fail_fast_counterexample :
    mapDrugName ⟨["Warfarin"], true⟩ (fun _ => [(1 : ℚ)]) "" 2 (-1) = none ∧
    getDrugSuggestions ⟨["Warfarin"], true⟩ (fun _ => [(1 : ℚ)]) "" (-1) 2 = [] ∧
    getDrugSuggestions ⟨["Warfarin"], true⟩ (fun _ => [(1 : ℚ)]) "warfarin" (-1) 0 = [] ∧
    getDrugSuggestions ⟨["Warfarin"], true⟩ (fun _ => [(1 : ℚ)]) "warfarin" 5 2 = [] := by
  decide

/-- C8 amended: The resolver and suggestion operations perform no
argument validation: a query that is empty after stripping yields the
normal "no match" values (`None` / `[]`) for *every* threshold (including
values outside `[0,1]`) and every `top_k` (including negative values,
which merely truncate the candidate list); no error is ever raised. -/
theorem mapper_no_validation (m : DrugNameMapper) (enc : String → List ℚ)
    (q : String) (t : ℚ) (k : Int) (h : pyStrip q = "") :
    mapDrugName m enc q t k = none ∧ getDrugSuggestions m enc q k t = [] := by
  constructor
  · simp [mapDrugName, h]
  · simp [getDrugSuggestions, h]

/-- Witness for the amended C8 with out-of-range threshold and negative
`top_k`. -/
theorem mapper_no_validation_witness :
    mapDrugName ⟨["Warfarin"], true⟩ (fun _ => [(1 : ℚ)]) "  " 2 (-1) = none ∧
    getDrugSuggestions ⟨["Warfarin"], true⟩ (fun _ => [(1 : ℚ)]) "  " (-1) 2 = [] :=
  mapper_no_validation ⟨["Warfarin"], true⟩ (fun _ => [(1 : ℚ)]) "  " 2 (-1) (by decide)

/-- C10: `get_drug_suggestions` applies no exact-match short-circuit:
with the vocabulary `["Warfarin"]` and an embedding function scoring the
query at `0`, the case-insensitively exact query `"warfarin"` produces no
suggestion at threshold `1`, even though `map_drug_name` short-circuits to
`"Warfarin"` on the very same inputs — suggestions come solely from
similarity scoring filtered by the threshold. -/
theorem getDrugSuggestions_no_short_circuit :
    pyLower (pyStrip "warfarin") = pyLower "Warfarin" ∧
    mapDrugName ⟨["Warfarin"], true⟩ (fun _ => [(0 : ℚ)]) "warfarin" 1 5 =
      some "Warfarin" ∧
    getDrugSuggestions ⟨["Warfarin"], true⟩ (fun _ => [(0 : ℚ)]) "warfarin" 5 1 = [] := by
  decide

/-- Every ranked pair carries the score at its own position. -/
theorem mem_simPairs {s : List ℚ} {p : ℕ × ℚ} (h : p ∈ simPairs s) :
    p.2 = s.getD p.1 0 := by
  simp only [simPairs, List.mem_map, List.mem_range] at h
  obtain ⟨i, _, rfl⟩ := h
  rfl

theorem sortedPairs_pairwise (s : List ℚ) :
    (List.insertionSort pairLE (simPairs s)).Pairwise pairLE :=
  List.sorted_insertionSort pairLE (simPairs s)

theorem sortedPairs_fst_nodup (s : List ℚ) :
    ((List.insertionSort pairLE (simPairs s)).map Prod.fst).Nodup := by
  have hperm : List.Perm ((List.insertionSort pairLE (simPairs s)).map Prod.fst)
      ((simPairs s).map Prod.fst) :=
    (List.perm_insertionSort pairLE (simPairs s)).map Prod.fst
  have hrange : (simPairs s).map Prod.fst = List.range s.length := by
    simp only [simPairs, List.map_map]
    exact List.map_id _
  rw [hperm.nodup_iff, hrange]
  exact List.nodup_range _

/-- The order in which `_find_closest_drugs` visits candidate positions:
strictly descending score, ties in strictly *descending* original
position (`argsort` ascending stable, then reversed). -/
def descRel (s : List ℚ) (i j : ℕ) : Prop :=
  s.getD j 0 < s.getD i 0 ∨ (s.getD i 0 = s.getD j 0 ∧ j < i)

theorem argsortDesc_pairwise (s : List ℚ) :
    (argsortDesc s).Pairwise (descRel s) := by
  have hpw := sortedPairs_pairwise s
  have hne : (List.insertionSort pairLE (simPairs s)).Pairwise
      (fun p q => p.1 ≠ q.1) := by
    have h := sortedPairs_fst_nodup s
    rw [List.Nodup, List.pairwise_map] at h
    exact h
  have hmem : ∀ p ∈ List.insertionSort pairLE (simPairs s), p.2 = s.getD p.1 0 :=
    fun p hp =>
      mem_simPairs ((List.perm_insertionSort pairLE (simPairs s)).mem_iff.mp hp)
  have hstrict : (List.insertionSort pairLE (simPairs s)).Pairwise
      (fun p q => descRel s q.1 p.1) := by
    refine ((hpw.and hne).imp_of_mem ?_)
    rintro a b ha hb ⟨hab | ⟨he, hle⟩, hne'⟩
    · exact Or.inl (by rw [← hmem a ha, ← hmem b hb]; exact hab)
    · refine Or.inr ⟨?_, Nat.lt_of_le_of_ne hle hne'⟩
      rw [← hmem a ha, ← hmem b hb]
      exact he.symm
  unfold argsortDesc argsortAsc
  rw [List.pairwise_reverse, List.pairwise_map]
  exact hstrict

theorem pyTake_sublist {α : Type} (k : Int) (l : List α) :
    (pyTake k l).Sublist l := by
  unfold pyTake
  split
  · exact List.take_sublist _ _
  · exact List.take_sublist _ _

theorem selectedIndices_pairwise (s : List ℚ) (k : Int) (t : ℚ) :
    (selectedIndices s k t).Pairwise (descRel s) :=
  List.Pairwise.sublist
    ((List.filter_sublist _).trans (pyTake_sublist k _))
    (argsortDesc_pairwise s)

/-- C6 amended: `_find_closest_drugs` returns the pairs of the
selected candidate positions, which are ranked in strictly descending
similarity with ties broken by strictly descending (i.e. *reverse*)
vocabulary order; consequently the returned scores are sorted descending. -/
theorem findClosestDrugs_sorted (names : List String) (enc : String → List ℚ)
    (q : String) (k : Int) (t : ℚ) :
    findClosestDrugs names enc q k t =
      (selectedIndices (enc q) k t).map
        (fun i => (names.getD i "", (enc q).getD i 0)) ∧
    (selectedIndices (enc q) k t).Pairwise (descRel (enc q)) ∧
    ((findClosestDrugs names enc q k t).map Prod.snd).Pairwise
      (fun a b : ℚ => b ≤ a) := by
  refine ⟨rfl, selectedIndices_pairwise _ _ _, ?_⟩
  show (((selectedIndices (enc q) k t).map
      (fun i => (names.getD i "", (enc q).getD i 0))).map Prod.snd).Pairwise _
  rw [List.map_map, List.pairwise_map]
  refine (selectedIndices_pairwise (enc q) k t).imp ?_
  intro i j h
  rcases h with h | ⟨he, _⟩
  · exact le_of_lt h
  · exact le_of_eq he.symm

/-- C6 counterexample: Two vocabulary entries with *equal* similarity
come back in reverse vocabulary order, not original order: with scores
`[0, 0]` for `["A", "B"]`, the ranked list is `[("B",0), ("A",0)]`. -/
theorem findClosestDrugs_tie_order_counterexample :
    findClosestDrugs ["A", "B"] (fun _ => [(0 : ℚ), 0]) "q" 2 0 =
      [("B", 0), ("A", 0)] ∧
    findClosestDrugs ["A", "B"] (fun _ => [(0 : ℚ), 0]) "q" 2 0 ≠
      [("A", 0), ("B", 0)] := by
  decide

/-- C7: Raising the threshold only removes suggestions: every
`(name, score)` pair suggested at threshold `t1` is also suggested at any
lower threshold `t2`, for the same query and `top_k` (the `top_k` slice is
taken before the threshold filter, so it is identical in both calls). -/
theorem getDrugSuggestions_threshold_mono (m : DrugNameMapper)
    (enc : String → List ℚ) (q : String) (k : Int) (t1 t2 : ℚ)
    (x : String × ℚ) (hle : t2 ≤ t1)
    (hx : x ∈ getDrugSuggestions m enc q k t1) :
    x ∈ getDrugSuggestions m enc q k t2 := by
  unfold getDrugSuggestions at hx ⊢
  split_ifs at hx ⊢ with h1 h2
  · exact absurd hx (List.not_mem_nil x)
  · exact absurd hx (List.not_mem_nil x)
  · unfold findClosestDrugs selectedIndices at hx ⊢
    simp only [List.mem_map, List.mem_filter] at hx ⊢
    obtain ⟨i, ⟨hi, hti⟩, rfl⟩ := hx
    refine ⟨i, ⟨hi, ?_⟩, rfl⟩
    rw [decide_eq_true_iff] at hti ⊢
    exact le_trans hle hti

/-- Witness for C7 at the thresholds named in the spec (`0.9` vs `0.5`). -/
theorem getDrugSuggestions_threshold_mono_witness :
    ((1 : ℚ)/2 ≤ 9/10) ∧
    ("Warfarin", (1 : ℚ)) ∈
      getDrugSuggestions ⟨["Warfarin"], true⟩ (fun _ => [(1 : ℚ)]) "warfarin" 5 (9/10) ∧
    ("Warfarin", (1 : ℚ)) ∈
      getDrugSuggestions ⟨["Warfarin"], true⟩ (fun _ => [(1 : ℚ)]) "warfarin" 5 (1/2) := by
  have hmem : ("Warfarin", (1 : ℚ)) ∈
      getDrugSuggestions ⟨["Warfarin"], true⟩ (fun _ => [(1 : ℚ)]) "warfarin" 5 (9/10) := by
    have hval : getDrugSuggestions ⟨["Warfarin"], true⟩ (fun _ => [(1 : ℚ)])
        "warfarin" 5 (9/10) = [("Warfarin", 1)] := by
      simp only [getDrugSuggestions, findClosestDrugs, selectedIndices,
        argsortDesc, argsortAsc, simPairs, pyTake, List.insertionSort,
        List.orderedInsert]
      norm_num [List.filter, pyStrip, pyLower]
      decide
    rw [hval]
    exact List.mem_singleton.mpr rfl
  exact ⟨by norm_num, hmem,
    getDrugSuggestions_threshold_mono ⟨["Warfarin"], true⟩ (fun _ => [(1 : ℚ)])
      "warfarin" 5 (9/10) (1/2) ("Warfarin", 1) (by norm_num) hmem⟩

/-! Section: GraphML persistence (`export_to_graphml` and `__init__(filepath)`)

`igraph.write_graphml` / `igraph.read` are external library calls; per
their interchange contract they preserve vertex order, edge order and the
string attributes `name`, `name_normalized` and `condition` exactly, so a
GraphML file is modelled as the attributed graph it encodes. -/

/-- The content of a GraphML file written by `export_to_graphml`. -/
structure GraphMLFile where
  vertices : List GVertex
  edges : List GEdge
deriving DecidableEq, Repr

/-- `export_to_graphml`: `self.graph.write_graphml(filepath)`. -/
def exportToGraphml (g : DrugInteractionGraph) : GraphMLFile :=
  ⟨g.vertices, g.edges⟩

/-- `_load_name_to_vertex`: rebuild the auxiliary index by iterating the
vertex sequence and assigning `dict[v["name_normalized"]] = v.index`. -/
def loadNameToVertex (vs : List GVertex) : List (String × Nat) :=
  vs.enum.foldl (fun d p => dictInsert d p.2.name_normalized p.1) []

/-- `DrugInteractionGraph.__init__(filepath)`: `ig.read(filepath)` followed
by `_load_name_to_vertex()`. -/
def initFromFile (f : GraphMLFile) : DrugInteractionGraph :=
  { vertices := f.vertices, edges := f.edges,
    name_to_vertex := loadNameToVertex f.vertices }

/-- The invariant every graph reachable through the public constructors
maintains: the auxiliary index is exactly the one `_load_name_to_vertex`
would rebuild from the vertex sequence. -/
def WellFormed (g : DrugInteractionGraph) : Prop :=
  g.name_to_vertex = loadNameToVertex g.vertices

theorem wellFormed_empty : WellFormed emptyGraph := rfl

theorem loadNameToVertex_append (vs : List GVertex) (v : GVertex) :
    loadNameToVertex (vs ++ [v]) =
      dictInsert (loadNameToVertex vs) v.name_normalized vs.length := by
  unfold loadNameToVertex
  rw [List.enum_append, List.foldl_append, List.enumFrom_singleton]
  simp only [List.foldl_cons, List.foldl_nil]

theorem wellFormed_getOrCreate (g : DrugInteractionGraph) (name : String)
    (h : WellFormed g) : WellFormed (getOrCreateVertex g name).1 := by
  unfold WellFormed at h ⊢
  unfold getOrCreateVertex
  cases hd : dictGet g.name_to_vertex (normalizeName name) with
  | some v => simp only [hd]; exact h
  | none =>
      simp only [hd]
      rw [loadNameToVertex_append, h]

theorem wellFormed_addInteraction (g : DrugInteractionGraph)
    (d1 d2 : String) (c : Option String) (h : WellFormed g) :
    WellFormed (addInteraction g d1 d2 c) := by
  have h2 : WellFormed (getOrCreateVertex (getOrCreateVertex g d1).1 d2).1 :=
    wellFormed_getOrCreate _ d2 (wellFormed_getOrCreate g d1 h)
  unfold addInteraction
  rcases hE : getEid (getOrCreateVertex (getOrCreateVertex g d1).1 d2).1
      (getOrCreateVertex g d1).2
      (getOrCreateVertex (getOrCreateVertex g d1).1 d2).2 with _ | eid
  · simp only [hE]
    exact h2
  · simp only [hE]
    rcases hG : ((getOrCreateVertex (getOrCreateVertex g d1).1 d2).1).edges[eid]?
        with _ | e
    · simp only [hG]
      exact h2
    · simp only [hG]
      exact h2

/-- C9: Saving a well-formed graph to the GraphML interchange file and
loading it back preserves `stats()` (vertex and edge counts) and yields
identical `get_interaction` results for every pair of names. -/
theorem graphml_roundtrip (g : DrugInteractionGraph) (h : WellFormed g) :
    getStats (initFromFile (exportToGraphml g)) = getStats g ∧
    ∀ a b : String,
      searchInteraction (initFromFile (exportToGraphml g)) a b =
        searchInteraction g a b := by
  have hid : initFromFile (exportToGraphml g) = g := by
    cases g with
    | mk vs es ntv =>
        unfold initFromFile exportToGraphml
        unfold WellFormed at h
        simp only at h
        simp only [h]
  rw [hid]
  exact ⟨rfl, fun _ _ => rfl⟩

/-- Witness for C9 at the concrete two-vertex graph `sampleGraph`. -/
theorem graphml_roundtrip_witness :
    getStats (initFromFile (exportToGraphml sampleGraph)) = getStats sampleGraph ∧
    searchInteraction (initFromFile (exportToGraphml sampleGraph)) "A" "B" =
      searchInteraction sampleGraph "A" "B" := by
  have h := graphml_roundtrip sampleGraph
    (show sampleGraph.name_to_vertex = loadNameToVertex sampleGraph.vertices by decide)
  exact ⟨h.1, h.2 "A" "B"⟩

end DDISafe
